import Mathlib

/-!
Shallow embedding of the account / session-lifecycle handlers of the
go-base API (src/api/app/account.go: the `app` package account resource and
the `auth` package login / token / refresh / logout resource).

Handlers are modelled as pure functions from an explicit state (the
persistent store and the login-token issuer) and a per-request environment
(wall-clock time, freshly generated UUID, outcomes of the external signing
and persistence calls) to a response together with the successor state.
Times are integers; the JWT signing library, the user-agent parser and the
JSON transport are external collaborators, modelled by environment fields.
-/

/-- Refresh/device token record (auth.Token): id, opaque token string,
expiry, updated-at, owning account, mobile flag, human-readable identifier. -/
structure Token where
  id : Int
  token : String
  expiry : Int
  updatedAt : Int
  accountID : Int
  mobile : Bool
  identifier : String
deriving Repr, DecidableEq

/-- Account record (auth.Account). Modelled from the spec: the auth.Account
struct itself is not under src/; the spec gives id, email, name,
active/eligibility flag, roles, login timestamp and the set of device tokens. -/
structure Account where
  id : Int
  email : String
  name : String
  active : Bool
  roles : List String
  lastLogin : Int
  token : List Token
deriving Repr, DecidableEq

/-- Modelled from the spec: Account.CanLogin is not under src/; the spec
describes it as the boolean account-level eligibility gate (active flag). -/
def Account.canLogin (a : Account) : Bool := a.active

/-- Ephemeral login token held by the issuer (spec §3 LoginToken). -/
structure LoginToken where
  token : String
  accountID : Int
  expiry : Int
deriving Repr, DecidableEq

/-- Modelled from the spec: the login-token issuer's CreateToken generates a
token with configured TTL, associates it with the account id and makes it
resolvable until expiry. The fresh token string is an input. -/
def createToken (issuer : List LoginToken) (accountID : Int) (tok : String)
    (now ttl : Int) : LoginToken × List LoginToken :=
  let lt : LoginToken := ⟨tok, accountID, now + ttl⟩
  (lt, lt :: issuer)

/-- Modelled from the spec: the issuer's GetAccountID fails when the token is
absent, malformed, or past expiry. -/
def getAccountID (issuer : List LoginToken) (now : Int) (tok : String) : Option Int :=
  match issuer.find? (fun lt => lt.token == tok && decide (now < lt.expiry)) with
  | some lt => some lt.accountID
  | none => none

/-- Persistent store of the auth resource. Modelled from the spec: the
relational persistence layer is an external collaborator; accounts and
refresh-token records are rows keyed by their integer ids. -/
structure AuthStore where
  accounts : List Account
  tokens : List Token
deriving Repr, DecidableEq

/-- Store lookup of an account by (normalized) email. -/
def AuthStore.getByEmail (s : AuthStore) (e : String) : Option Account :=
  s.accounts.find? (fun a => a.email == e)

/-- Store lookup of an account by id. -/
def AuthStore.getByID (s : AuthStore) (id : Int) : Option Account :=
  s.accounts.find? (fun a => a.id == id)

/-- Store lookup resolving a refresh-token string to its record and the
owning account; fails when either is absent. -/
def AuthStore.getByRefreshToken (s : AuthStore) (rt : String) :
    Option (Account × Token) :=
  match s.tokens.find? (fun t => t.token == rt) with
  | none => none
  | some t =>
    match s.getByID t.accountID with
    | none => none
    | some a => some (a, t)

/-- Store upsert of a refresh-token record, keyed by its id. -/
def AuthStore.saveRefreshToken (s : AuthStore) (t : Token) : AuthStore :=
  if s.tokens.any (fun u => u.id == t.id) then
    { s with tokens := s.tokens.map (fun u => if u.id == t.id then t else u) }
  else
    { s with tokens := s.tokens ++ [t] }

/-- Store deletion of a refresh-token record, keyed by its id. -/
def AuthStore.deleteRefreshToken (s : AuthStore) (t : Token) : AuthStore :=
  { s with tokens := s.tokens.filter (fun u => u.id != t.id) }

/-- Store update of an account row, keyed by its id. -/
def AuthStore.updateAccount (s : AuthStore) (a : Account) : AuthStore :=
  { s with accounts := s.accounts.map (fun u => if u.id == a.id then a else u) }

/-- Application-level error classes rendered by the handlers (the structured
error envelope of §7; ErrUnauthorized carries the auth error shown). -/
inductive ApiError where
  | invalidLogin
  | unknownLogin
  | loginDisabled
  | loginToken
  | tokenExpired
  | internalServerErr
  | unauthorized
  | badRequest
  | invalidRequest
  | validationErrs
  | renderErr
deriving Repr, DecidableEq

/-- Outcome of a handler: a rendered error, or a success payload. -/
inductive HResult (α : Type) where
  | err (e : ApiError)
  | ok (v : α)
deriving Repr, DecidableEq

/-- Access/refresh pair returned by token and refresh (tokenResponse). -/
structure TokenPair where
  access : String
  refresh : String
deriving Repr, DecidableEq

/-- Per-request environment: wall clock, fresh UUID and row id, configured
expiries, outcome of the external GenTokenPair signing call, failure flags of
the fallible store writes, and the parsed user agent. -/
structure Env where
  now : Int
  newUUID : String
  newTokenID : Int
  refreshExpiry : Int
  loginTokenTTL : Int
  genPair : Option (String × String)
  saveTokenFails : Bool
  updateAccountFails : Bool
  browser : String
  os : String
  mobile : Bool

/-- Combined mutable state of the auth resource: store plus issuer. -/
structure AuthState where
  store : AuthStore
  issuer : List LoginToken
deriving Repr, DecidableEq

/-- Modelled from the Go stdlib (an external collaborator): drop the leading
whitespace characters of a character list. -/
def trimLeftChars : List Char → List Char
  | [] => []
  | c :: cs => if c.isWhitespace then trimLeftChars cs else c :: cs

/-- Modelled from the Go stdlib: strings.TrimSpace as a structural function
on the character list (trailing then leading whitespace removed). -/
def trimSpace (s : String) : String :=
  String.mk (trimLeftChars (trimLeftChars s.data.reverse).reverse)

/-- Modelled from the Go stdlib: strings.ToLower as a character map. -/
def toLowerStr (s : String) : String := String.mk (s.data.map Char.toLower)

/-- Modelled from the spec: ozzo is.Email is an external validator; only
well-formedness matters here, modelled as containing a "@". -/
def isEmailFormat (s : String) : Bool := s.data.contains '@'

/-- Ozzo is.Alphanumeric: every character an English letter or digit. -/
def isAlphanumeric (s : String) : Bool := s.data.all (fun c => c.isAlpha || c.isDigit)

/-- Resource.login: bind (trim, lowercase, validate), look up by email, gate
on eligibility, issue a login token; the email dispatch is asynchronous and
does not affect response or state. -/
def Resource.login (st : AuthState) (env : Env) (emailRaw : String) :
    HResult Unit × AuthState :=
  let email := toLowerStr (trimSpace emailRaw)
  if email == "" || !isEmailFormat email then
    (.err .invalidLogin, st)
  else
    match st.store.getByEmail email with
    | none => (.err .unknownLogin, st)
    | some acc =>
      if !acc.canLogin then
        (.err .loginDisabled, st)
      else
        let created := createToken st.issuer acc.id env.newUUID env.now env.loginTokenTTL
        (.ok (), { st with issuer := created.2 })

/-- Refresh-token record built by Resource.token from the environment and the
resolved account (fresh UUID, configured expiry, user-agent identifier). -/
def mintedToken (env : Env) (acc : Account) : Token :=
  { id := env.newTokenID
    token := env.newUUID
    expiry := env.now + env.refreshExpiry
    updatedAt := env.now
    accountID := acc.id
    mobile := env.mobile
    identifier := env.browser ++ " on " ++ env.os }

/-- Resource.token (redemption): bind (trim, required, alphanumeric), resolve
the login token via the issuer, re-fetch the account, gate on eligibility,
persist a new refresh-token record, sign the pair, update last-login. -/
def Resource.token (st : AuthState) (env : Env) (bodyToken : String) :
    HResult TokenPair × AuthState :=
  let tok := trimSpace bodyToken
  if tok == "" || !isAlphanumeric tok then
    (.err .loginToken, st)
  else
    match getAccountID st.issuer env.now tok with
    | none => (.err .loginToken, st)
    | some id =>
      match st.store.getByID id with
      | none => (.err .unknownLogin, st)
      | some acc =>
        if !acc.canLogin then
          (.err .loginDisabled, st)
        else
          let t := mintedToken env acc
          if env.saveTokenFails then
            (.err .internalServerErr, st)
          else
            let st1 := { st with store := st.store.saveRefreshToken t }
            match env.genPair with
            | none => (.err .internalServerErr, st1)
            | some pair =>
              if env.updateAccountFails then
                (.err .internalServerErr, st1)
              else
                (.ok ⟨pair.1, pair.2⟩,
                 { st1 with store := st1.store.updateAccount { acc with lastLogin := env.now } })

/-- Resource.refresh: resolve the refresh token, delete-and-fail when past
expiry, gate on eligibility, rotate the record in place (new token string,
expiry, updated-at), sign the pair, save, update last-login. -/
def Resource.refresh (st : AuthState) (env : Env) (rt : String) :
    HResult TokenPair × AuthState :=
  match st.store.getByRefreshToken rt with
  | none => (.err .tokenExpired, st)
  | some (acc, tok) =>
    if env.now > tok.expiry then
      (.err .tokenExpired, { st with store := st.store.deleteRefreshToken tok })
    else if !acc.canLogin then
      (.err .loginDisabled, st)
    else
      let tok2 := { tok with
        token := env.newUUID
        expiry := env.now + env.refreshExpiry
        updatedAt := env.now }
      match env.genPair with
      | none => (.err .internalServerErr, st)
      | some pair =>
        if env.saveTokenFails then
          (.err .internalServerErr, st)
        else
          let st1 := { st with store := st.store.saveRefreshToken tok2 }
          if env.updateAccountFails then
            (.err .internalServerErr, st1)
          else
            (.ok ⟨pair.1, pair.2⟩,
             { st1 with store := st1.store.updateAccount { acc with lastLogin := env.now } })

/-- Resource.logout: resolve the refresh token (token-expired when absent),
then delete its record; the store's delete error is discarded. -/
def Resource.logout (st : AuthState) (rt : String) : HResult Unit × AuthState :=
  match st.store.getByRefreshToken rt with
  | none => (.err .tokenExpired, st)
  | some at' => (.ok (), { st with store := st.store.deleteRefreshToken at'.2 })

/-- Database operations available to the account resource (AccountStore
interface); only the account table matters for the middleware. -/
structure AccountsDB where
  accounts : List Account
deriving Repr, DecidableEq

/-- AccountStore.Get: look up an account row by id. -/
def AccountsDB.get (db : AccountsDB) (id : Int) : Option Account :=
  db.accounts.find? (fun a => a.id == id)

/-- AccountResource.accountCtx middleware: resolve the caller's account from
the validated claims id; on store failure render unauthorized and do not
invoke the wrapped handler, otherwise run it on the resolved account. -/
def AccountResource.accountCtx {α : Type} (db : AccountsDB) (claimsID : Int)
    (next : Account → HResult α) : HResult α :=
  match db.get claimsID with
  | none => .err .unauthorized
  | some a => next a

/-- Trace of mutating AccountStore calls issued by a token handler; a delete
records whether the (discarded) store error occurred. -/
inductive StoreCall where
  | updateToken (t : Token)
  | deleteToken (id : Int) (failed : Bool)
deriving Repr, DecidableEq

/-- Effect of one traced store call on a token table: rename on update,
remove the row on a successful delete. -/
def applyCall (ts : List Token) : StoreCall → List Token
  | StoreCall.updateToken t =>
    ts.map (fun u => if u.id == t.id then { u with identifier := t.identifier } else u)
  | StoreCall.deleteToken id failed =>
    if failed then ts else ts.filter (fun u => u.id != id)

/-- Parse a run of decimal digits into an accumulator, failing on any other
character. -/
def parseNatChars (acc : Nat) : List Char → Option Nat
  | [] => some acc
  | c :: cs => if c.isDigit then parseNatChars (10 * acc + (c.toNat - 48)) cs else none

/-- Modelled from the Go stdlib: strconv.Atoi (optional sign followed by one
or more decimal digits) on a character list. -/
def atoiChars : List Char → Option Int
  | [] => none
  | '+' :: cs => if cs = [] then none else (parseNatChars 0 cs).map Int.ofNat
  | '-' :: cs => if cs = [] then none else (parseNatChars 0 cs).map (fun n => -(n : Int))
  | cs => (parseNatChars 0 cs).map Int.ofNat

/-- Go strconv.Atoi applied to the tokenID URL parameter. -/
def atoi (s : String) : Option Int := atoiChars s.data

/-- Zero value of auth.Token, as produced by a Go composite literal that
sets only some fields. -/
def Token.zero : Token :=
  { id := 0, token := "", expiry := 0, updatedAt := 0, accountID := 0
    mobile := false, identifier := "" }

/-- Loop of AccountResource.updateToken over the caller's own tokens: on an
id match issue Store.UpdateToken with a record carrying only the id and the
new identifier, returning invalid-request on the store's error. -/
def AccountResource.updateTokenLoop (updErr : Token → Bool) (id : Int)
    (ident : String) : List Token → HResult Unit × List StoreCall
  | [] => (.ok (), [])
  | t :: rest =>
    if t.id == id then
      let arg := { Token.zero with id := t.id, identifier := ident }
      if updErr arg then
        (.err .invalidRequest, [StoreCall.updateToken arg])
      else
        let r := AccountResource.updateTokenLoop updErr id ident rest
        (r.1, StoreCall.updateToken arg :: r.2)
    else
      AccountResource.updateTokenLoop updErr id ident rest

/-- AccountResource.updateToken: parse the tokenID path parameter, bind the
body (trimming the identifier), and rename only tokens of the caller's own
account that match the id; respond with no body. -/
def AccountResource.updateToken (updErr : Token → Bool) (acc : Account)
    (tokenIDParam : String) (bodyIdentifier : String) :
    HResult Unit × List StoreCall :=
  match atoi tokenIDParam with
  | none => (.err .badRequest, [])
  | some id =>
    AccountResource.updateTokenLoop updErr id (trimSpace bodyIdentifier) acc.token

/-- Loop of AccountResource.deleteToken over the caller's own tokens: on an
id match issue Store.DeleteToken, discarding its error. -/
def AccountResource.deleteTokenLoop (delErr : Int → Bool) (id : Int) :
    List Token → List StoreCall
  | [] => []
  | t :: rest =>
    if t.id == id then
      StoreCall.deleteToken t.id (delErr t.id) ::
        AccountResource.deleteTokenLoop delErr id rest
    else
      AccountResource.deleteTokenLoop delErr id rest

/-- AccountResource.deleteToken: parse the tokenID path parameter and delete
only matching tokens of the caller's own account; the store's delete error is
discarded and the response is always no-body success after a valid parse. -/
def AccountResource.deleteToken (delErr : Int → Bool) (acc : Account)
    (tokenIDParam : String) : HResult Unit × List StoreCall :=
  match atoi tokenIDParam with
  | none => (.err .badRequest, [])
  | some id => (.ok (), AccountResource.deleteTokenLoop delErr id acc.token)

/-- Decoded JSON body of an account update request; absent fields are none. -/
structure AccountBody where
  id : Option Int
  active : Option Bool
  roles : Option (List String)
  email : Option String
  name : Option String
deriving Repr, DecidableEq

/-- The accountRequest struct: the embedded account plus the protected
shadow fields carrying the json tags id, active and roles. -/
structure AccountRequest where
  account : Account
  protectedID : Int
  protectedActive : Bool
  protectedRoles : List String
deriving Repr, DecidableEq

/-- Binding of the update body onto accountRequest with the embedded caller
account. Per Go encoding/json field shadowing, the ProtectedID,
ProtectedActive and ProtectedRoles fields carry the json tags id, active and
roles and therefore receive those body values, which never reach the
embedded account; email and name decode onto the account, absent fields keep
their current values and absent protected fields keep the zero value. -/
def bindAccountRequest (acc : Account) (body : AccountBody) : AccountRequest :=
  { account := { acc with
      email := body.email.getD acc.email
      name := body.name.getD acc.name }
    protectedID := body.id.getD 0
    protectedActive := body.active.getD false
    protectedRoles := body.roles.getD [] }

/-- Outcome of the AccountStore.Update call: success, ozzo validation
errors, or another persistence error. -/
inductive StoreUpdateResult where
  | ok
  | validationFailed
  | otherFailure
deriving Repr, DecidableEq

/-- AccountResource.update: bind the request body onto the caller's account,
persist via the store (validation errors rendered as such, other errors as
render errors) and respond with the updated account. The second component is
the account object after binding. -/
def AccountResource.update (storeUpd : Account → StoreUpdateResult)
    (acc : Account) (body : AccountBody) : HResult Account × Account :=
  let data := bindAccountRequest acc body
  let acc2 := data.account
  match storeUpd acc2 with
  | StoreUpdateResult.validationFailed => (.err .validationErrs, acc2)
  | StoreUpdateResult.otherFailure => (.err .renderErr, acc2)
  | StoreUpdateResult.ok => (.ok acc2, acc2)

/-- Store well-formedness used below: refresh-token strings identify their
record uniquely (the token column is unique). -/
def tokenStringsInjective (s : AuthStore) : Prop :=
  ∀ t1 ∈ s.tokens, ∀ t2 ∈ s.tokens, t1.token = t2.token → t1 = t2

instance (s : AuthStore) : Decidable (tokenStringsInjective s) := by
  unfold tokenStringsInjective
  infer_instance

theorem find?_none_of {α : Type} (p : α → Bool) (l : List α)
    (h : ∀ x ∈ l, p x = false) : l.find? p = none := by
  induction l with
  | nil => rfl
  | cons a t ih =>
    have ha := h a (List.mem_cons_self a t)
    simp only [List.find?, ha]
    exact ih (fun x hx => h x (List.mem_cons_of_mem a hx))

theorem find?_some_of {α : Type} (p : α → Bool) (l : List α) (a : α)
    (ha : a ∈ l) (hpa : p a = true) (huniq : ∀ x ∈ l, p x = true → x = a) :
    l.find? p = some a := by
  induction l with
  | nil => cases ha
  | cons b t ih =>
    cases hpb : p b with
    | true =>
      have hba := huniq b (List.mem_cons_self b t) hpb
      simp only [List.find?, hpb]
      exact congrArg some hba
    | false =>
      have hat : a ∈ t := by
        rcases List.mem_cons.mp ha with h | h
        · exact absurd (h ▸ hpa) (by simp [hpb])
        · exact h
      simp only [List.find?, hpb]
      exact ih hat (fun x hx => huniq x (List.mem_cons_of_mem b hx))

theorem find?_map_congr {α β : Type} (g : α → β) (p : β → Bool) (q : α → Bool)
    (l : List α) (h : ∀ y ∈ l, p (g y) = q y) :
    (l.map g).find? p = Option.map g (l.find? q) := by
  induction l with
  | nil => rfl
  | cons a t ih =>
    have ha := h a (List.mem_cons_self a t)
    cases hq : q a with
    | true =>
      simp only [List.map, List.find?, ha, hq]
      rfl
    | false =>
      simp only [List.map, List.find?, ha, hq]
      exact ih (fun y hy => h y (List.mem_cons_of_mem a hy))

theorem getByRefreshToken_eq_some {s : AuthStore} {rt : String}
    {acc : Account} {tok : Token}
    (h : s.getByRefreshToken rt = some (acc, tok)) :
    s.tokens.find? (fun t => t.token == rt) = some tok ∧
    s.getByID tok.accountID = some acc := by
  cases hf : s.tokens.find? (fun t => t.token == rt) with
  | none =>
    exfalso
    simp [AuthStore.getByRefreshToken, hf] at h
  | some t =>
    cases hg : s.getByID t.accountID with
    | none =>
      exfalso
      simp [AuthStore.getByRefreshToken, hf, hg] at h
    | some a =>
      simp [AuthStore.getByRefreshToken, hf, hg] at h
      obtain ⟨h1, h2⟩ := h
      subst h1
      subst h2
      exact ⟨rfl, hg⟩

theorem tokens_updateAccount (s : AuthStore) (a : Account) :
    (s.updateAccount a).tokens = s.tokens := rfl

theorem mem_saveRefreshToken_self (s : AuthStore) (t : Token) :
    t ∈ (s.saveRefreshToken t).tokens := by
  unfold AuthStore.saveRefreshToken
  by_cases h : s.tokens.any (fun u => u.id == t.id)
  · simp only [h, if_true]
    obtain ⟨u, hu, hid⟩ := List.any_eq_true.mp h
    exact List.mem_map.mpr ⟨u, hu, by simp [hid]⟩
  · simp [h]

theorem update_snd_eq (storeUpd : Account → StoreUpdateResult) (acc : Account)
    (body : AccountBody) :
    (AccountResource.update storeUpd acc body).2 = (bindAccountRequest acc body).account := by
  simp only [AccountResource.update]
  cases storeUpd (bindAccountRequest acc body).account <;> rfl

theorem updateTokenLoop_noop (updErr : Token → Bool) (id : Int) (ident : String)
    (ts : List Token) (h : id ∉ ts.map Token.id) :
    AccountResource.updateTokenLoop updErr id ident ts = (.ok (), []) := by
  induction ts with
  | nil => rfl
  | cons t rest ih =>
    have h1 : ¬ t.id = id := fun he => h (by simp [he])
    have h2 : id ∉ rest.map Token.id := fun hm => h (by simp [hm])
    simp only [AccountResource.updateTokenLoop, beq_iff_eq, h1, if_false]
    exact ih h2

theorem deleteTokenLoop_noop (delErr : Int → Bool) (id : Int)
    (ts : List Token) (h : id ∉ ts.map Token.id) :
    AccountResource.deleteTokenLoop delErr id ts = [] := by
  induction ts with
  | nil => rfl
  | cons t rest ih =>
    have h1 : ¬ t.id = id := fun he => h (by simp [he])
    have h2 : id ∉ rest.map Token.id := fun hm => h (by simp [hm])
    simp only [AccountResource.deleteTokenLoop, beq_iff_eq, h1, if_false]
    exact ih h2

theorem deleteTokenLoop_mem (delErr : Int → Bool) (id : Int) (ts : List Token)
    (h : id ∈ ts.map Token.id) :
    StoreCall.deleteToken id (delErr id) ∈ AccountResource.deleteTokenLoop delErr id ts := by
  induction ts with
  | nil => simp at h
  | cons t rest ih =>
    by_cases hid : t.id = id
    · simp only [AccountResource.deleteTokenLoop, beq_iff_eq, hid, if_true]
      exact List.mem_cons_self _ _
    · have h2 : id ∈ rest.map Token.id := by
        simp only [List.map_cons, List.mem_cons] at h
        rcases h with he | he
        · exact absurd he.symm hid
        · exact he
      simp only [AccountResource.deleteTokenLoop, beq_iff_eq, hid, if_false]
      exact ih h2

/-- C2: a token-redemption request whose login token is (after trimming)
empty, not alphanumeric, or unresolvable by the issuer is answered with the
login-token error and changes neither the store nor the issuer, so no
refresh-token record is created or persisted. -/
theorem token_fails_clean_on_bad_login_token (st : AuthState) (env : Env)
    (bodyToken : String)
    (h : (trimSpace bodyToken) = "" ∨ isAlphanumeric (trimSpace bodyToken) = false ∨
         getAccountID st.issuer env.now (trimSpace bodyToken) = none) :
    Resource.token st env bodyToken = (.err .loginToken, st) := by
  rcases h with h | h | h
  · simp [Resource.token, h]
  · simp [Resource.token, h]
  · by_cases hv : ((trimSpace bodyToken) == "" || !isAlphanumeric (trimSpace bodyToken)) = true
    · simp [Resource.token, hv]
    · simp [Resource.token, hv, h]

/-- C4: updateToken and deleteToken with a parsed tokenID that is not among
the caller's own account tokens respond with no-body success and issue no
store call at all, so applying their (empty) call trace leaves every token
table unchanged. -/
theorem tokenHandlers_noop_on_unowned_id (updErr : Token → Bool) (delErr : Int → Bool)
    (acc : Account) (p bodyIdent : String) (id : Int)
    (hparse : atoi p = some id)
    (hnot : id ∉ acc.token.map Token.id) :
    AccountResource.updateToken updErr acc p bodyIdent = (.ok (), []) ∧
    AccountResource.deleteToken delErr acc p = (.ok (), []) ∧
    (∀ ts : List Token,
      ((AccountResource.updateToken updErr acc p bodyIdent).2.foldl applyCall ts = ts ∧
       (AccountResource.deleteToken delErr acc p).2.foldl applyCall ts = ts)) := by
  have hu : AccountResource.updateToken updErr acc p bodyIdent = (.ok (), []) := by
    simp [AccountResource.updateToken, hparse,
      updateTokenLoop_noop updErr id (trimSpace bodyIdent) acc.token hnot]
  have hd : AccountResource.deleteToken delErr acc p = (.ok (), []) := by
    simp [AccountResource.deleteToken, hparse,
      deleteTokenLoop_noop delErr id acc.token hnot]
  exact ⟨hu, hd, fun ts => by rw [hu, hd]; exact ⟨rfl, rfl⟩⟩

/-- C5: when the store resolves the refresh token but the record's expiry is
strictly in the past, refresh deletes exactly that record and answers with
the token-expired error; no pair is minted and no rotation is saved. -/
theorem refresh_expired_deletes_record (st : AuthState) (env : Env) (rt : String)
    (acc : Account) (tok : Token)
    (hres : st.store.getByRefreshToken rt = some (acc, tok))
    (hexp : env.now > tok.expiry) :
    Resource.refresh st env rt =
      (.err .tokenExpired, { st with store := st.store.deleteRefreshToken tok }) := by
  simp [Resource.refresh, hres, hexp]

/-- C7: the account update handler never lets the request body touch the
protected fields: the account object after binding (and returned by the
handler) keeps the caller's id, active flag and roles, whatever the body
holds and whatever the store answers. -/
theorem update_ignores_protected_fields (storeUpd : Account → StoreUpdateResult)
    (acc : Account) (body : AccountBody) :
    (AccountResource.update storeUpd acc body).2.id = acc.id ∧
    (AccountResource.update storeUpd acc body).2.active = acc.active ∧
    (AccountResource.update storeUpd acc body).2.roles = acc.roles := by
  simp [update_snd_eq, bindAccountRequest]

/-- C8: when the access-token claims name an account id the store can no
longer resolve, the accountCtx middleware answers unauthorized, and the
wrapped route handler is never invoked (the outcome is the same constant for
every handler). -/
theorem accountCtx_rejects_deleted_account {α : Type} (db : AccountsDB)
    (claimsID : Int) (h : db.get claimsID = none) (next : Account → HResult α) :
    AccountResource.accountCtx db claimsID next = .err .unauthorized := by
  simp [AccountResource.accountCtx, h]

/-- C9: in redemption the refresh-token record is persisted before the pair
is signed; when GenTokenPair or the last-login account update fails, the
response is an internal server error while the freshly minted record is
already (and stays) in the store. -/
theorem token_error_leaves_persisted_record (st : AuthState) (env : Env)
    (bodyToken : String) (id : Int) (acc : Account)
    (hne : ((trimSpace bodyToken) == "" || !isAlphanumeric (trimSpace bodyToken)) = false)
    (hres : getAccountID st.issuer env.now (trimSpace bodyToken) = some id)
    (hacc : st.store.getByID id = some acc)
    (hcl : acc.canLogin = true)
    (hsave : env.saveTokenFails = false)
    (hfail : env.genPair = none ∨ env.updateAccountFails = true) :
    (Resource.token st env bodyToken).1 = .err .internalServerErr ∧
    mintedToken env acc ∈ (Resource.token st env bodyToken).2.store.tokens := by
  rcases hfail with hf | hf
  · simp [Resource.token, hne, hres, hacc, hcl, hsave, hf, mem_saveRefreshToken_self]
  · cases hgp : env.genPair with
    | none =>
      simp [Resource.token, hne, hres, hacc, hcl, hsave, hgp, mem_saveRefreshToken_self]
    | some pr =>
      simp [Resource.token, hne, hres, hacc, hcl, hsave, hgp, hf, mem_saveRefreshToken_self]

/-- C10: deleteToken discards the store's delete error: with a parseable
tokenID owned by the caller the response is no-body success whatever the
delete outcome, and the trace shows the delete call was issued with exactly
that (ignored) outcome. -/
theorem deleteToken_discards_store_error (delErr : Int → Bool) (acc : Account)
    (p : String) (id : Int)
    (hparse : atoi p = some id)
    (hown : id ∈ acc.token.map Token.id) :
    (AccountResource.deleteToken delErr acc p).1 = .ok () ∧
    StoreCall.deleteToken id (delErr id) ∈ (AccountResource.deleteToken delErr acc p).2 := by
  constructor
  · simp [AccountResource.deleteToken, hparse]
  · simp only [AccountResource.deleteToken, hparse]
    exact deleteTokenLoop_mem delErr id acc.token hown

theorem accounts_saveRefreshToken (s : AuthStore) (t : Token) :
    (s.saveRefreshToken t).accounts = s.accounts := by
  unfold AuthStore.saveRefreshToken
  split <;> rfl

theorem getByID_saveRefreshToken (s : AuthStore) (t : Token) (i : Int) :
    (s.saveRefreshToken t).getByID i = s.getByID i := by
  unfold AuthStore.getByID
  rw [accounts_saveRefreshToken]

theorem refresh_success_eq (st : AuthState) (env : Env) (rt : String)
    (acc : Account) (tok : Token) (pr : String × String)
    (hres : st.store.getByRefreshToken rt = some (acc, tok))
    (hexp : ¬ env.now > tok.expiry)
    (hcl : acc.canLogin = true)
    (hpair : env.genPair = some pr)
    (hsave : env.saveTokenFails = false)
    (hupd : env.updateAccountFails = false) :
    Resource.refresh st env rt =
      (.ok ⟨pr.1, pr.2⟩,
       { st with store :=
          ((st.store.saveRefreshToken
            ({ tok with token := env.newUUID, expiry := env.now + env.refreshExpiry,
                        updatedAt := env.now })).updateAccount
            ({ acc with lastLogin := env.now })) }) := by
  simp [Resource.refresh, hres, hexp, hcl, hpair, hsave, hupd]

theorem find?_save_old_none (s : AuthStore) (tok t2 : Token)
    (hmem : tok ∈ s.tokens)
    (hid : t2.id = tok.id)
    (hinj : tokenStringsInjective s)
    (hfresh : ∀ x ∈ s.tokens, x.token ≠ t2.token) :
    (s.saveRefreshToken t2).tokens.find? (fun x => x.token == tok.token) = none := by
  have hany : s.tokens.any (fun u => u.id == t2.id) = true :=
    List.any_eq_true.mpr ⟨tok, hmem, by simp [hid]⟩
  simp only [AuthStore.saveRefreshToken, hany, if_true]
  apply find?_none_of
  intro x hx
  obtain ⟨y, hy, hxy⟩ := List.mem_map.mp hx
  by_cases hyid : (y.id == t2.id) = true
  · have hx2 : x = t2 := by rw [← hxy]; simp [hyid]
    have hne : t2.token ≠ tok.token := (hfresh tok hmem).symm
    simp [hx2, hne]
  · have hx2 : x = y := by rw [← hxy]; simp [hyid]
    by_cases ht : y.token = tok.token
    · exfalso
      have hytok : y = tok := hinj y hy tok hmem ht
      rw [hytok] at hyid
      exact hyid (by simp [hid])
    · simp [hx2, ht]

theorem find?_save_new_some (s : AuthStore) (tok t2 : Token)
    (hmem : tok ∈ s.tokens)
    (hid : t2.id = tok.id)
    (hfresh : ∀ x ∈ s.tokens, x.token ≠ t2.token) :
    (s.saveRefreshToken t2).tokens.find? (fun x => x.token == t2.token) = some t2 := by
  have hany : s.tokens.any (fun u => u.id == t2.id) = true :=
    List.any_eq_true.mpr ⟨tok, hmem, by simp [hid]⟩
  simp only [AuthStore.saveRefreshToken, hany, if_true]
  refine find?_some_of _ _ t2 (List.mem_map.mpr ⟨tok, hmem, by simp [hid]⟩) (by simp) ?_
  intro x hx hpx
  obtain ⟨y, hy, hxy⟩ := List.mem_map.mp hx
  by_cases hyid : (y.id == t2.id) = true
  · rw [← hxy]; simp [hyid]
  · exfalso
    have hx2 : x = y := by rw [← hxy]; simp [hyid]
    rw [hx2] at hpx
    exact hfresh y hy (by simpa using hpx)

theorem getByID_updateAccount (s : AuthStore) (aid : Int) (acc a2 : Account)
    (hget : s.getByID aid = some acc)
    (hid : a2.id = acc.id) :
    (s.updateAccount a2).getByID aid = some a2 := by
  unfold AuthStore.getByID at hget ⊢
  unfold AuthStore.updateAccount
  rw [find?_map_congr (fun u => if u.id == a2.id then a2 else u)
        (fun a => a.id == aid) (fun a => a.id == aid) s.accounts ?hcong]
  · rw [hget]
    have hacc : acc.id = aid := by simpa using List.find?_some hget
    have : (acc.id == a2.id) = true := by simp [hid]
    simp only [Option.map_some', this, if_true]
  case hcong =>
    intro y hy
    by_cases hyid : (y.id == a2.id) = true
    · have hy2 : y.id = a2.id := by simpa using hyid
      simp only [hyid, if_true]
      rw [hy2]
    · simp [hyid]

theorem getByRefreshToken_after_save_update (s : AuthStore) (tok t2 : Token)
    (acc a2 : Account)
    (hinj : tokenStringsInjective s)
    (hfresh : ∀ x ∈ s.tokens, x.token ≠ t2.token)
    (hfind : s.tokens.find? (fun t => t.token == tok.token) = some tok)
    (hgid : s.getByID tok.accountID = some acc)
    (hidt : t2.id = tok.id)
    (hacct : t2.accountID = tok.accountID)
    (hida : a2.id = acc.id) :
    ((s.saveRefreshToken t2).updateAccount a2).getByRefreshToken tok.token = none ∧
    ((s.saveRefreshToken t2).updateAccount a2).getByRefreshToken t2.token = some (a2, t2) := by
  have hmem : tok ∈ s.tokens := List.mem_of_find?_eq_some hfind
  constructor
  · have hold := find?_save_old_none s tok t2 hmem hidt hinj hfresh
    simp only [AuthStore.getByRefreshToken, tokens_updateAccount, hold]
  · have hnew := find?_save_new_some s tok t2 hmem hidt hfresh
    have hacc2 : ((s.saveRefreshToken t2).updateAccount a2).getByID t2.accountID = some a2 := by
      apply getByID_updateAccount
      · rw [getByID_saveRefreshToken, hacct]
        exact hgid
      · exact hida
    simp only [AuthStore.getByRefreshToken, tokens_updateAccount, hnew, hacc2]

theorem getByRefreshToken_delete_none (s : AuthStore) (rt : String)
    (acc : Account) (tok : Token)
    (hinj : tokenStringsInjective s)
    (hres : s.getByRefreshToken rt = some (acc, tok)) :
    (s.deleteRefreshToken tok).getByRefreshToken rt = none := by
  obtain ⟨hfind, _⟩ := getByRefreshToken_eq_some hres
  have hmem : tok ∈ s.tokens := List.mem_of_find?_eq_some hfind
  have hrt : tok.token = rt := by simpa using List.find?_some hfind
  have hnone : (s.tokens.filter (fun u => u.id != tok.id)).find?
      (fun t => t.token == rt) = none := by
    apply find?_none_of
    intro x hx
    obtain ⟨hxmem, hxid⟩ := List.mem_filter.mp hx
    by_cases ht : x.token = rt
    · exfalso
      have hxtok : x = tok := hinj x hxmem tok hmem (ht.trans hrt.symm)
      rw [hxtok] at hxid
      simp at hxid
    · simp [ht]
  simp only [AuthStore.getByRefreshToken, AuthStore.deleteRefreshToken, hnone]

/-- C1: a successful refresh (resolvable, non-expired token, eligible
account, external calls succeeding) rotates the stored record in place: the
result is the signed pair, the record keeps its id but carries the fresh
token string, new expiry and new updated-at, and afterwards the store no
longer resolves the previous refresh-token string while it resolves the new
one to the rotated record. -/
theorem refresh_rotates_token (st : AuthState) (env : Env) (rt : String)
    (acc : Account) (tok : Token) (pr : String × String)
    (hinj : tokenStringsInjective st.store)
    (hfresh : ∀ x ∈ st.store.tokens, x.token ≠ env.newUUID)
    (hres : st.store.getByRefreshToken rt = some (acc, tok))
    (hexp : ¬ env.now > tok.expiry)
    (hcl : acc.canLogin = true)
    (hpair : env.genPair = some pr)
    (hsave : env.saveTokenFails = false)
    (hupd : env.updateAccountFails = false) :
    (Resource.refresh st env rt).1 = .ok ⟨pr.1, pr.2⟩ ∧
    (Resource.refresh st env rt).2.store.getByRefreshToken rt = none ∧
    (Resource.refresh st env rt).2.store.getByRefreshToken env.newUUID =
      some ({ acc with lastLogin := env.now },
            { tok with token := env.newUUID, expiry := env.now + env.refreshExpiry,
                       updatedAt := env.now }) := by
  obtain ⟨hfind, hgid⟩ := getByRefreshToken_eq_some hres
  have hrt : tok.token = rt := by simpa using List.find?_some hfind
  subst hrt
  have heq := refresh_success_eq st env tok.token acc tok pr hres hexp hcl hpair hsave hupd
  have hboth := getByRefreshToken_after_save_update st.store tok
      ({ tok with token := env.newUUID, expiry := env.now + env.refreshExpiry,
                  updatedAt := env.now })
      acc ({ acc with lastLogin := env.now }) hinj hfresh hfind hgid rfl rfl rfl
  rw [heq]
  exact ⟨rfl, hboth.1, hboth.2⟩

/-- C6: a resolvable refresh token makes logout succeed and delete exactly
that record; with unique token strings, any later refresh or logout carrying
the same (now-deleted) string fails with token-expired and leaves the state
as it is. -/
theorem logout_deletes_then_expired (st : AuthState) (rt : String)
    (acc : Account) (tok : Token)
    (hinj : tokenStringsInjective st.store)
    (hres : st.store.getByRefreshToken rt = some (acc, tok)) :
    Resource.logout st rt = (.ok (), { st with store := st.store.deleteRefreshToken tok }) ∧
    (∀ env, Resource.refresh { st with store := st.store.deleteRefreshToken tok } env rt =
      (.err .tokenExpired, { st with store := st.store.deleteRefreshToken tok })) ∧
    Resource.logout { st with store := st.store.deleteRefreshToken tok } rt =
      (.err .tokenExpired, { st with store := st.store.deleteRefreshToken tok }) := by
  have hd := getByRefreshToken_delete_none st.store rt acc tok hinj hres
  refine ⟨?_, ?_, ?_⟩
  · simp [Resource.logout, hres]
  · intro env
    simp [Resource.refresh, hd]
  · simp [Resource.logout, hd]

/-- C3: the eligibility gate: a login request resolving to an ineligible
account fails with login-disabled and issues no login token; a redemption
whose valid login token resolves to an existing ineligible account, and a
refresh whose live token record belongs to an ineligible account, fail with
login-disabled and leave the state untouched; and whenever redemption or
refresh succeeds, the account it resolved is eligible, so no session is ever
granted or renewed for an ineligible account. -/
theorem no_session_for_disabled_account (st : AuthState) (env : Env)
    (emailRaw bodyToken rt : String) :
    (∀ acc, ((toLowerStr (trimSpace emailRaw)) == "" || !isEmailFormat (toLowerStr (trimSpace emailRaw))) = false →
       st.store.getByEmail (toLowerStr (trimSpace emailRaw)) = some acc → acc.canLogin = false →
       Resource.login st env emailRaw = (.err .loginDisabled, st)) ∧
    (∀ id acc, ((trimSpace bodyToken) == "" || !isAlphanumeric (trimSpace bodyToken)) = false →
       getAccountID st.issuer env.now (trimSpace bodyToken) = some id →
       st.store.getByID id = some acc → acc.canLogin = false →
       Resource.token st env bodyToken = (.err .loginDisabled, st)) ∧
    (∀ acc tok, st.store.getByRefreshToken rt = some (acc, tok) →
       ¬ env.now > tok.expiry → acc.canLogin = false →
       Resource.refresh st env rt = (.err .loginDisabled, st)) ∧
    (∀ res, (Resource.token st env bodyToken).1 = .ok res →
       ∀ id acc, getAccountID st.issuer env.now (trimSpace bodyToken) = some id →
         st.store.getByID id = some acc → acc.canLogin = true) ∧
    (∀ res, (Resource.refresh st env rt).1 = .ok res →
       ∀ acc tok, st.store.getByRefreshToken rt = some (acc, tok) → acc.canLogin = true) := by
  refine ⟨?_, ?_, ?_, ?_, ?_⟩
  · intro acc hv hget hcl
    simp [Resource.login, hv, hget, hcl]
  · intro id acc hv hid hacc hcl
    simp [Resource.token, hv, hid, hacc, hcl]
  · intro acc tok hres hexp hcl
    simp [Resource.refresh, hres, hexp, hcl]
  · intro res hok id acc hid hacc
    by_cases hcl : acc.canLogin = true
    · exact hcl
    · exfalso
      have hcl' : acc.canLogin = false := by
        cases h : acc.canLogin
        · rfl
        · exact absurd h hcl
      by_cases hv : ((trimSpace bodyToken) == "" || !isAlphanumeric (trimSpace bodyToken)) = true
      · simp [Resource.token, hv] at hok
      · simp [Resource.token, hv, hid, hacc, hcl'] at hok
  · intro res hok acc tok hres
    by_cases hcl : acc.canLogin = true
    · exact hcl
    · exfalso
      have hcl' : acc.canLogin = false := by
        cases h : acc.canLogin
        · rfl
        · exact absurd h hcl
      by_cases hexp : env.now > tok.expiry
      · simp [Resource.refresh, hres, hexp] at hok
      · simp [Resource.refresh, hres, hexp, hcl'] at hok

/-- Concrete fixture: a live refresh-token record owned by the account
below, used to evaluate the theorems on closed inputs. -/
def tok0 : Token :=
  { id := 1, token := "rt1", expiry := 100, updatedAt := 0, accountID := 10
    mobile := false, identifier := "Chrome on Linux" }

/-- Concrete fixture: an eligible account owning tok0. -/
def alice : Account :=
  { id := 10, email := "alice@example.com", name := "Alice", active := true
    roles := [], lastLogin := 0, token := [tok0] }

/-- Concrete fixture: an account with the eligibility gate off. -/
def bob : Account :=
  { id := 11, email := "bob@example.com", name := "Bob", active := false
    roles := [], lastLogin := 0, token := [] }

/-- Concrete fixture: store holding both accounts and the one token row. -/
def store0 : AuthStore := { accounts := [alice, bob], tokens := [tok0] }

/-- Concrete fixture: issuer holding live login tokens for both accounts. -/
def issuer0 : List LoginToken := [⟨"abc123", 10, 50⟩, ⟨"bobtok", 11, 50⟩]

/-- Concrete fixture: combined auth state. -/
def st0 : AuthState := { store := store0, issuer := issuer0 }

/-- Concrete fixture: request environment where every external call succeeds. -/
def env0 : Env :=
  { now := 5, newUUID := "uuid2", newTokenID := 2, refreshExpiry := 100
    loginTokenTTL := 10, genPair := some ("acc", "ref"), saveTokenFails := false
    updateAccountFails := false, browser := "Chrome", os := "Linux", mobile := false }

/-- Concrete fixture: same environment but with the clock past tok0's expiry. -/
def env5 : Env := { env0 with now := 200 }

/-- Concrete fixture: same environment but with the signing call failing. -/
def env9 : Env := { env0 with genPair := none }

/-- Concrete fixture: account database for the middleware. -/
def db0 : AccountsDB := { accounts := [alice] }

theorem refresh_rotates_token_witness :
    st0.store.getByRefreshToken "rt1" = some (alice, tok0) ∧
    ((Resource.refresh st0 env0 "rt1").1 = .ok ⟨"acc", "ref"⟩ ∧
     (Resource.refresh st0 env0 "rt1").2.store.getByRefreshToken "rt1" = none ∧
     (Resource.refresh st0 env0 "rt1").2.store.getByRefreshToken "uuid2" =
       some ({ alice with lastLogin := 5 },
             { tok0 with token := "uuid2", expiry := 105, updatedAt := 5 })) :=
  ⟨by decide,
   refresh_rotates_token st0 env0 "rt1" alice tok0 ("acc", "ref")
     (by decide) (by decide) (by decide) (by decide) (by decide) rfl rfl rfl⟩

theorem token_fails_clean_witness :
    getAccountID st0.issuer env0.now (trimSpace "zzz") = none ∧
    Resource.token st0 env0 "zzz" = (.err .loginToken, st0) :=
  ⟨by decide,
   token_fails_clean_on_bad_login_token st0 env0 "zzz" (Or.inr (Or.inr (by decide)))⟩

theorem no_session_for_disabled_witness :
    st0.store.getByEmail "bob@example.com" = some bob ∧ bob.canLogin = false ∧
    Resource.login st0 env0 "bob@example.com" = (.err .loginDisabled, st0) :=
  ⟨by decide, by decide,
   (no_session_for_disabled_account st0 env0 "bob@example.com" "x" "y").1 bob
     (by decide) (by decide) (by decide)⟩

theorem tokenHandlers_noop_witness :
    atoi "99" = some 99 ∧ (99 : Int) ∉ alice.token.map Token.id ∧
    AccountResource.updateToken (fun _ => false) alice "99" "newname" = (.ok (), []) ∧
    AccountResource.deleteToken (fun _ => false) alice "99" = (.ok (), []) :=
  ⟨by decide, by decide,
   (tokenHandlers_noop_on_unowned_id (fun _ => false) (fun _ => false) alice "99"
      "newname" 99 (by decide) (by decide)).1,
   (tokenHandlers_noop_on_unowned_id (fun _ => false) (fun _ => false) alice "99"
      "newname" 99 (by decide) (by decide)).2.1⟩

theorem refresh_expired_witness :
    st0.store.getByRefreshToken "rt1" = some (alice, tok0) ∧ env5.now > tok0.expiry ∧
    Resource.refresh st0 env5 "rt1" =
      (.err .tokenExpired, { st0 with store := st0.store.deleteRefreshToken tok0 }) :=
  ⟨by decide, by decide,
   refresh_expired_deletes_record st0 env5 "rt1" alice tok0 (by decide) (by decide)⟩

theorem logout_deletes_witness :
    st0.store.getByRefreshToken "rt1" = some (alice, tok0) ∧
    Resource.logout st0 "rt1" =
      (.ok (), { st0 with store := st0.store.deleteRefreshToken tok0 }) ∧
    Resource.refresh { st0 with store := st0.store.deleteRefreshToken tok0 } env0 "rt1" =
      (.err .tokenExpired, { st0 with store := st0.store.deleteRefreshToken tok0 }) ∧
    Resource.logout { st0 with store := st0.store.deleteRefreshToken tok0 } "rt1" =
      (.err .tokenExpired, { st0 with store := st0.store.deleteRefreshToken tok0 }) :=
  ⟨by decide,
   (logout_deletes_then_expired st0 "rt1" alice tok0 (by decide) (by decide)).1,
   (logout_deletes_then_expired st0 "rt1" alice tok0 (by decide) (by decide)).2.1 env0,
   (logout_deletes_then_expired st0 "rt1" alice tok0 (by decide) (by decide)).2.2⟩

theorem accountCtx_rejects_witness :
    db0.get 99 = none ∧
    AccountResource.accountCtx db0 99 (fun a => HResult.ok a.email) = .err .unauthorized :=
  ⟨by decide,
   accountCtx_rejects_deleted_account db0 99 (by decide) (fun a => HResult.ok a.email)⟩

theorem token_error_persists_witness :
    getAccountID st0.issuer env9.now (trimSpace "abc123") = some 10 ∧
    st0.store.getByID 10 = some alice ∧
    (Resource.token st0 env9 "abc123").1 = .err .internalServerErr ∧
    mintedToken env9 alice ∈ (Resource.token st0 env9 "abc123").2.store.tokens :=
  ⟨by decide, by decide,
   (token_error_leaves_persisted_record st0 env9 "abc123" 10 alice (by decide)
      (by decide) (by decide) (by decide) rfl (Or.inl rfl)).1,
   (token_error_leaves_persisted_record st0 env9 "abc123" 10 alice (by decide)
      (by decide) (by decide) (by decide) rfl (Or.inl rfl)).2⟩

theorem deleteToken_discards_witness :
    atoi "1" = some 1 ∧ (1 : Int) ∈ alice.token.map Token.id ∧
    (AccountResource.deleteToken (fun _ => true) alice "1").1 = .ok () ∧
    StoreCall.deleteToken 1 true ∈ (AccountResource.deleteToken (fun _ => true) alice "1").2 :=
  ⟨by decide, by decide,
   (deleteToken_discards_store_error (fun _ => true) alice "1" 1 (by decide) (by decide)).1,
   (deleteToken_discards_store_error (fun _ => true) alice "1" 1 (by decide) (by decide)).2⟩
